import Mathlib

/-!
Shallow embedding of the Alchemy-Pay/alchemy-chain-go-sdk Go SDK
(file `alchemy.go`) together with theorems about its behaviour.

The embedding models:
  * `buildSortedMessage` (canonical message builder),
  * `generateSignature` (signer; the external elliptic-curve and Keccak
    primitives from go-ethereum are abstracted as a `Crypto` record, while
    the private-key hex parsing of `crypto.HexToECDSA` is modelled
    concretely),
  * `rpcCall`, `getBlockNumber`, `CreateToken`, `dynamicCallWithType`
    (as functions of a network environment, recording the network calls
    they perform),
  * the generic `ResponseHandler` with its `Success`/`Error` accessors,
  * the wei/eth conversion of `GetBalance`, including a faithful model of
    `big.Float` (binary floating point, round-to-nearest-even) and of
    `Float.Text('g', 10)` decimal rendering used by `Float.String()`.

Go maps are modelled as association lists (`List (String × GoValue)`);
the list order stands for the map's iteration order, which Go leaves
unspecified.  Machine integers are modelled as `Int`/`Nat`; byte values
carry an explicit `% 256` where Go performs byte arithmetic.
-/

namespace AlchemySDK

/-- A primitive Go value as used in the SDK's `map[string]interface{}`
parameter maps: `string`, signed integer (`int32`/`int64`), or `bool`. -/
inductive GoValue where
  | str (s : String)
  | int (n : Int)
  | bool (b : Bool)
deriving DecidableEq

/-- Model of Go's `fmt.Sprintf("%v", value)` on the primitive values used by
the SDK: decimal representation for integers, `true`/`false` for booleans,
the string itself for strings. -/
def GoValue.format : GoValue → String
  | .str s => s
  | .int n => toString n
  | .bool b => if b then "true" else "false"

/-- A parameter map, modelled as an association list.  The list order models
the (unspecified) iteration order of the Go map; well-formed maps have
`Nodup` keys. -/
abbrev Params := List (String × GoValue)

/-- The keys of a parameter map, in iteration order. -/
def keysOf (params : Params) : List String := params.map Prod.fst

/-- Lexicographic comparison of character lists.  On UTF-8 strings,
code-point lexicographic order coincides with Go's byte-wise string order
used by `sort.Strings`. -/
def charListLe : List Char → List Char → Bool
  | [], _ => true
  | _ :: _, [] => false
  | a :: as, b :: bs => if a < b then true else if b < a then false else charListLe as bs

/-- Go's string order (`s1 <= s2` byte-wise), used by `sort.Strings`. -/
def strLe (a b : String) : Bool := charListLe a.data b.data

theorem charListLe_total : ∀ as bs, charListLe as bs = true ∨ charListLe bs as = true
  | [], _ => Or.inl rfl
  | _ :: _, [] => Or.inr rfl
  | a :: as, b :: bs => by
    rcases lt_trichotomy a b with h | h | h
    · left
      simp [charListLe, h]
    · subst h
      rcases charListLe_total as bs with h' | h'
      · left
        simp [charListLe, lt_self_iff_false, h']
      · right
        simp [charListLe, lt_self_iff_false, h']
    · right
      simp [charListLe, h]

theorem charListLe_trans : ∀ as bs cs, charListLe as bs = true → charListLe bs cs = true →
    charListLe as cs = true
  | [], _, _ => fun _ _ => rfl
  | a :: as, [], _ => fun h _ => by simp [charListLe] at h
  | _ :: _, _ :: _, [] => fun _ h => by simp [charListLe] at h
  | a :: as, b :: bs, c :: cs => fun h1 h2 => by
    simp only [charListLe] at h1 h2 ⊢
    by_cases hab : a < b
    · have hac : a < c := by
        by_cases hbc : b < c
        · exact lt_trans hab hbc
        · rw [if_neg hbc] at h2
          by_cases hcb : c < b
          · rw [if_pos hcb] at h2
            exact absurd h2 (by simp)
          · have hbceq : b = c := le_antisymm (not_lt.mp hcb) (not_lt.mp hbc)
            exact hbceq ▸ hab
      rw [if_pos hac]
    · rw [if_neg hab] at h1
      by_cases hba : b < a
      · rw [if_pos hba] at h1
        exact absurd h1 (by simp)
      · rw [if_neg hba] at h1
        have heq : a = b := le_antisymm (not_lt.mp hba) (not_lt.mp hab)
        subst heq
        by_cases hac : a < c
        · rw [if_pos hac]
        · rw [if_neg hac] at h2 ⊢
          by_cases hca : c < a
          · rw [if_pos hca] at h2
            exact absurd h2 (by simp)
          · rw [if_neg hca] at h2 ⊢
            exact charListLe_trans as bs cs h1 h2

theorem charListLe_antisymm : ∀ as bs, charListLe as bs = true → charListLe bs as = true →
    as = bs
  | [], [] => fun _ _ => rfl
  | [], _ :: _ => fun _ h => by simp [charListLe] at h
  | _ :: _, [] => fun h _ => by simp [charListLe] at h
  | a :: as, b :: bs => fun h1 h2 => by
    simp only [charListLe] at h1 h2
    by_cases hab : a < b
    · rw [if_neg (lt_asymm hab), if_pos hab] at h2
      exact absurd h2 (by simp)
    · by_cases hba : b < a
      · rw [if_neg (lt_asymm hba), if_pos hba] at h1
        exact absurd h1 (by simp)
      · have heq : a = b := le_antisymm (not_lt.mp hba) (not_lt.mp hab)
        subst heq
        rw [if_neg (lt_irrefl a), if_neg (lt_irrefl a)] at h1 h2
        rw [charListLe_antisymm as bs h1 h2]

/-- The sorting relation on keys: Go's ascending string order as a `Prop`. -/
def strLeRel (a b : String) : Prop := strLe a b = true

instance : DecidableRel strLeRel := fun _ _ => inferInstanceAs (Decidable (_ = true))

instance : IsTotal String strLeRel := ⟨fun a b => charListLe_total a.data b.data⟩

instance : IsTrans String strLeRel :=
  ⟨fun a b c h h' => charListLe_trans a.data b.data c.data h h'⟩

instance : IsAntisymm String strLeRel :=
  ⟨fun a b h h' => by
    cases a
    cases b
    exact congrArg String.mk (charListLe_antisymm _ _ h h')⟩

/-- The sorting relation on key/value pairs, comparing keys. -/
def keyLeRel (p q : String × GoValue) : Prop := strLeRel p.1 q.1

instance : DecidableRel keyLeRel := fun _ _ => inferInstanceAs (Decidable (_ = true))

instance : IsTotal (String × GoValue) keyLeRel := ⟨fun a b => total_of strLeRel a.1 b.1⟩

instance : IsTrans (String × GoValue) keyLeRel :=
  ⟨fun a b c h h' => charListLe_trans a.1.data b.1.data c.1.data h h'⟩

/-- Embedding of `buildSortedMessage` (alchemy.go lines 76-92): collect the
map's keys, sort them ascending (`sort.Strings`), and join the
`%v`-formatted values in that key order with a comma separator.  The
`.getD` default is unreachable for keys taken from the map itself. -/
def buildSortedMessage (params : Params) : String :=
  let keys := (keysOf params).insertionSort strLeRel
  let messageParts := keys.map fun key => ((params.lookup key).map GoValue.format).getD ""
  String.intercalate "," messageParts

/-- The canonical message as the spec words it (spec §4.1 / claim C1):
sort the parameter set itself by ascending key and join the formatted
values with commas.  Used only to compare against `buildSortedMessage`. -/
def canonicalMessageSpec (params : Params) : String :=
  String.intercalate "," ((params.insertionSort keyLeRel).map fun p => p.2.format)

theorem lookup_eq_some_of_mem_of_nodup {l : Params} {k : String} {v : GoValue}
    (hmem : (k, v) ∈ l) (hnd : (keysOf l).Nodup) : l.lookup k = some v := by
  induction l with
  | nil => cases hmem
  | cons hd tl ih =>
    have hnd' : hd.1 ∉ keysOf tl ∧ (keysOf tl).Nodup := by
      simpa [keysOf] using hnd
    rw [List.mem_cons] at hmem
    rcases hmem with h | h
    · cases h.symm
      simp [List.lookup]
    · have hne : k ≠ hd.1 := by
        rintro rfl
        exact hnd'.1 (by simpa [keysOf] using List.mem_map_of_mem Prod.fst h)
      have hbeq : (k == hd.1) = false := beq_false_of_ne hne
      simp only [List.lookup, hbeq]
      exact ih h hnd'.2

theorem lookup_eq_none_iff {l : Params} {k : String} :
    l.lookup k = none ↔ k ∉ keysOf l := by
  induction l with
  | nil => simp [List.lookup, keysOf]
  | cons hd tl ih =>
    by_cases h : k = hd.1
    · subst h
      simp [List.lookup, keysOf]
    · have hbeq : (k == hd.1) = false := beq_false_of_ne h
      have hstep : (hd :: tl).lookup k = tl.lookup k := by
        simp [List.lookup, hbeq]
      rw [hstep, ih]
      have hkeys : keysOf (hd :: tl) = hd.1 :: keysOf tl := rfl
      rw [hkeys, List.mem_cons]
      constructor
      · intro hk hor
        rcases hor with h1 | h2
        · exact h h1
        · exact hk h2
      · intro hk h2
        exact hk (Or.inr h2)

theorem mem_of_lookup_eq_some {l : Params} {k : String} {v : GoValue}
    (h : l.lookup k = some v) : (k, v) ∈ l := by
  induction l with
  | nil => simp [List.lookup] at h
  | cons hd tl ih =>
    by_cases hk : k = hd.1
    · subst hk
      simp only [List.lookup, beq_self_eq_true] at h
      cases h
      exact List.mem_cons_self _ _
    · have hbeq : (k == hd.1) = false := beq_false_of_ne hk
      simp only [List.lookup, hbeq] at h
      exact List.mem_cons_of_mem _ (ih h)

theorem buildSortedMessage_eq_spec (params : Params) (hnd : (keysOf params).Nodup) :
    buildSortedMessage params = canonicalMessageSpec params := by
  have hperm : ((params.insertionSort keyLeRel).map Prod.fst).Perm
      ((keysOf params).insertionSort strLeRel) :=
    (((List.perm_insertionSort _ params).map Prod.fst)).trans
      (List.perm_insertionSort _ (keysOf params)).symm
  have hsorted₁ : ((params.insertionSort keyLeRel).map Prod.fst).Pairwise strLeRel := by
    have h := List.sorted_insertionSort keyLeRel params
    exact List.pairwise_map.mpr (h.imp fun hab => hab)
  have hsorted₂ : ((keysOf params).insertionSort strLeRel).Sorted strLeRel :=
    List.sorted_insertionSort _ _
  have hkeys : (params.insertionSort keyLeRel).map Prod.fst =
      (keysOf params).insertionSort strLeRel :=
    List.eq_of_perm_of_sorted hperm hsorted₁ hsorted₂
  show String.intercalate ","
      (((keysOf params).insertionSort strLeRel).map
        fun key => ((params.lookup key).map GoValue.format).getD "") = _
  rw [← hkeys, List.map_map]
  unfold canonicalMessageSpec
  congr 1
  apply List.map_congr_left
  intro p hp
  have hpmem : p ∈ params := (List.perm_insertionSort _ params).mem_iff.mp hp
  have hlk : params.lookup p.1 = some p.2 := lookup_eq_some_of_mem_of_nodup hpmem hnd
  simp [Function.comp, hlk]

theorem buildSortedMessage_perm (l₁ l₂ : Params) (hperm : l₁.Perm l₂)
    (hnd : (keysOf l₁).Nodup) : buildSortedMessage l₁ = buildSortedMessage l₂ := by
  have hnd₂ : (keysOf l₂).Nodup := (hperm.map Prod.fst).nodup_iff.mp hnd
  have hkeys : (keysOf l₁).insertionSort strLeRel = (keysOf l₂).insertionSort strLeRel := by
    apply List.eq_of_perm_of_sorted _ (List.sorted_insertionSort _ _)
      (List.sorted_insertionSort _ _)
    exact (List.perm_insertionSort _ _).trans
      ((hperm.map Prod.fst).trans (List.perm_insertionSort _ _).symm)
  show String.intercalate ","
      (((keysOf l₁).insertionSort strLeRel).map
        fun key => ((l₁.lookup key).map GoValue.format).getD "") = _
  rw [hkeys]
  show _ = String.intercalate ","
      (((keysOf l₂).insertionSort strLeRel).map
        fun key => ((l₂.lookup key).map GoValue.format).getD "")
  congr 1
  apply List.map_congr_left
  intro k _
  suffices h : l₁.lookup k = l₂.lookup k by rw [h]
  cases hcase : l₁.lookup k with
  | none =>
    have hnot : k ∉ keysOf l₂ := by
      intro hk
      exact (lookup_eq_none_iff.mp hcase) ((hperm.map Prod.fst).mem_iff.mpr hk)
    exact (lookup_eq_none_iff.mpr hnot).symm
  | some v =>
    have hmem : (k, v) ∈ l₂ := hperm.mem_iff.mp (mem_of_lookup_eq_some hcase)
    exact (lookup_eq_some_of_mem_of_nodup hmem hnd₂).symm

/-- UTF-8 encoding of a single code point (the bytes Go's `[]byte(message)`
produces for each rune), written with `/` and `%` so the kernel can
evaluate it. -/
def utf8EncodeChar (c : Char) : List Nat :=
  let n := c.toNat
  if n < 0x80 then [n]
  else if n < 0x800 then [0xC0 + n / 0x40, 0x80 + n % 0x40]
  else if n < 0x10000 then [0xE0 + n / 0x1000, 0x80 + (n / 0x40) % 0x40, 0x80 + n % 0x40]
  else [0xF0 + n / 0x40000, 0x80 + (n / 0x1000) % 0x40, 0x80 + (n / 0x40) % 0x40,
    0x80 + n % 0x40]

/-- The UTF-8 bytes of a string: Go's `[]byte(message)`. -/
def utf8Bytes (s : String) : List Nat := (s.data.map utf8EncodeChar).flatten

/-- Value of one hexadecimal digit character, `none` if not a hex digit. -/
def hexDigitVal (c : Char) : Option Nat :=
  if '0' ≤ c ∧ c ≤ '9' then some (c.toNat - '0'.toNat)
  else if 'a' ≤ c ∧ c ≤ 'f' then some (c.toNat - 'a'.toNat + 10)
  else if 'A' ≤ c ∧ c ≤ 'F' then some (c.toNat - 'A'.toNat + 10)
  else none

def hexDigitsValAux : List Char → Nat → Option Nat
  | [], acc => some acc
  | c :: cs, acc =>
    match hexDigitVal c with
    | none => none
    | some d => hexDigitsValAux cs (acc * 16 + d)

/-- Big-endian value of a non-empty all-hex character list. -/
def parseHexDigits (cs : List Char) : Option Nat :=
  if cs.isEmpty then none else hexDigitsValAux cs 0

/-- The secp256k1 group order N. -/
def secp256k1N : Nat :=
  0xFFFFFFFFFFFFFFFFFFFFFFFFFFFFFFFEBAAEDCE6AF48A03BBFD25E8CD0364141

/-- Model of go-ethereum `crypto.HexToECDSA` (hex.DecodeString followed by
`toECDSA` in strict mode): the string must be exactly 64 hex characters
(no "0x" accepted by `hex.DecodeString`), and the resulting scalar `d`
must satisfy `0 < d < N`.  Returns the private scalar. -/
def hexToECDSA (s : String) : Option Nat :=
  if s.data.length = 64 then
    match parseHexDigits s.data with
    | none => none
    | some d => if 0 < d ∧ d < secp256k1N then some d else none
  else none

/-- The "0x"-stripping at the top of `generateSignature` (alchemy.go
lines 96-100): drop the first two bytes exactly when the key has more than
two bytes and starts with the bytes "0x". -/
def stripHex0x (s : String) : String :=
  match s.data with
  | '0' :: 'x' :: c :: rest => ⟨c :: rest⟩
  | _ => s

/-- The external go-ethereum primitives, abstracted: `keccak256` maps a byte
list to its 32-byte hash; `sign` maps a 32-byte digest and a private scalar
to a 65-byte signature `r ‖ s ‖ recovery-id`, or fails. -/
structure Crypto where
  keccak256 : List Nat → List Nat
  sign : List Nat → Nat → Except Unit (List Nat)

/-- The error kinds an SDK operation can surface (the `error` values of the
Go code).  `message` renders them; only the text of `rpc` errors is
asserted by theorems, the other texts abbreviate the Go `fmt.Errorf`
prefixes. -/
inductive OpError where
  | transport
  | rpc (msg : String)
  | invalidKey
  | signFailure
  | decodeFailure
deriving DecidableEq

/-- The error text carried to the error callback. -/
def OpError.message : OpError → String
  | .transport => "transport error"
  | .rpc msg => "RPC error: " ++ msg
  | .invalidKey => "invalid private key"
  | .signFailure => "sign error"
  | .decodeFailure => "decode error"

/-- The signature triple of decimal strings (alchemy.go lines 68-73). -/
structure Signature where
  r : String
  s : String
  v : String
deriving DecidableEq

deriving instance DecidableEq for Except

/-- Model of `big.Int.SetBytes`: big-endian interpretation of a byte list (the
`% 256` makes the byte range explicit). -/
def beNat (bytes : List Nat) : Nat := bytes.foldl (fun acc b => acc * 256 + b % 256) 0

/-- Embedding of `generateSignature` (alchemy.go lines 95-130): strip an
optional "0x", parse the private key, Keccak-hash the UTF-8 bytes of the
canonical message, sign, and render r, s and the 27-shifted recovery byte
as decimal strings.  `signature[64] + 27` is Go byte arithmetic, hence the
explicit `% 256`. -/
def generateSignature (C : Crypto) (privateKey : String) (params : Params) :
    Except OpError Signature :=
  let privateKeyHex := stripHex0x privateKey
  match hexToECDSA privateKeyHex with
  | none => .error .invalidKey
  | some privKey =>
    let message := buildSortedMessage params
    let hash := C.keccak256 (utf8Bytes message)
    match C.sign hash privKey with
    | .error _ => .error .signFailure
    | .ok signature =>
      .ok { r := toString (beNat (signature.take 32))
          , s := toString (beNat ((signature.drop 32).take 32))
          , v := toString ((signature.getD 64 0 + 27) % 256) }

/-- Go `fmt`'s space table (`unicode.IsSpace` as used by the scanner). -/
def isGoSpace (c : Char) : Bool :=
  decide ((0x9 ≤ c.toNat ∧ c.toNat ≤ 0xD) ∨ c.toNat = 0x20 ∨ c.toNat = 0x85 ∨
    c.toNat = 0xA0 ∨ c.toNat = 0x1680 ∨ (0x2000 ≤ c.toNat ∧ c.toNat ≤ 0x200A) ∨
    c.toNat = 0x2028 ∨ c.toNat = 0x2029 ∨ c.toNat = 0x202F ∨ c.toNat = 0x205F ∨
    c.toNat = 0x3000)

/-- Model of `fmt.Sscanf(s, "0x%x", &blockNumber)` into an `int64`
(alchemy.go line 386): the literal "0x" must match the start of the input
byte-for-byte; the `%x` verb then skips spaces — with newline-as-space
disabled, as in all Scanf-family scanning, so that reaching a newline
while skipping aborts the scan with an unexpected-newline error; the
skipper consumes a carriage return directly followed by a newline, making
a "\r\n" pair fail too, while a lone carriage return is ordinary
skippable space — then accepts an optional sign and a maximal non-empty
run of hex digits, failing on int64 overflow.  `none` means the scan
failed, in which case the Go variable keeps its zero value 0. -/
def scanHex0xInt (s : String) : Option Int :=
  match s.data with
  | '0' :: 'x' :: rest =>
    let rest1 := rest.dropWhile (fun c => isGoSpace c && c != '\n')
    match rest1 with
    | '\n' :: _ => none
    | rest2 =>
      let signedRest : Bool × List Char :=
        match rest2 with
        | '-' :: r => (true, r)
        | '+' :: r => (false, r)
        | r => (false, r)
      let ds := signedRest.2.takeWhile (fun c => (hexDigitVal c).isSome)
      match parseHexDigits ds with
      | none => none
      | some n =>
        let v : Int := if signedRest.1 then -(n : Int) else (n : Int)
        if -(2 ^ 63) ≤ v ∧ v < 2 ^ 63 then some v else none
  | _ => none

/-- The decoded application-RPC response envelope `{result, error}`
(alchemy.go 352-357).  A malformed response body decodes to the zero value
(both fields `none`), because `rpcCall` ignores the `json.Unmarshal`
error.  `result` carries the raw JSON payload text. -/
structure RpcResp where
  result : Option String
  error : Option String
deriving DecidableEq

/-- The network environment seen by one operation: the decoded `result`
field of the chain node's eth_blockNumber response (`none` = transport
failure; a malformed JSON body leaves the zero value `""`, since
`getBlockNumber` ignores the Unmarshal error), and the decoded
application-RPC response (`none` = transport failure). -/
structure Env where
  blockResult : Option String
  rpcResponse : Option RpcResp

/-- A request payload value: the `interface{}` values stored in the
`reqParams` maps. -/
inductive ReqValue where
  | str (s : String)
  | int (n : Int)
  | args (l : List GoValue)
  | sig (sg : Signature)
deriving DecidableEq

abbrev ReqParams := List (String × ReqValue)

/-- One network round trip performed by an operation: the chain-node
eth_blockNumber POST (to baseURL, alchemy.go 370) or the application RPC
POST (to baseURL + "/rpc", alchemy.go 344) with its method and params. -/
inductive NetEvent where
  | blockNumberCall
  | appRpcCall (method : String) (params : ReqParams)
deriving DecidableEq

/-- Embedding of `getBlockNumber` (alchemy.go 369-389) over the
environment; the second component records the network call performed.
Scan failures are swallowed: the function returns 0 with a nil error. -/
def getBlockNumberM (env : Env) : Except OpError Int × List NetEvent :=
  match env.blockResult with
  | none => (.error .transport, [.blockNumberCall])
  | some resultField => (.ok ((scanHex0xInt resultField).getD 0), [.blockNumberCall])

/-- Embedding of `rpcCall` (alchemy.go 335-366): if the decoded envelope
carries an error, fail with an "RPC error" wrapping the server message;
otherwise return the raw result payload. -/
def rpcCallM (env : Env) (method : String) (params : ReqParams) :
    Except OpError (Option String) × List NetEvent :=
  match env.rpcResponse with
  | none => (.error .transport, [.appRpcCall method params])
  | some resp =>
    match resp.error with
    | some msg => (.error (.rpc msg), [.appRpcCall method params])
    | none => (.ok resp.result, [.appRpcCall method params])

/-- Embedding of `ResponseHandler[T]` (alchemy.go 31-34): the result value
(Go zero value when unset — all instantiations use pointer or Option-like
types) and a possibly-nil error. -/
structure ResponseHandler (T : Type u) where
  data : T
  err : Option OpError

/-- Embedding of `(*ResponseHandler).Success` (alchemy.go 36-41): invokes the callback
exactly when `err` is nil and returns the handler itself.  The second
component records the callback invocation (its return value) when it
fired. -/
def ResponseHandler.success {T : Type u} {β : Type v} (r : ResponseHandler T)
    (callback : T → β) : ResponseHandler T × Option β :=
  match r.err with
  | none => (r, some (callback r.data))
  | some _ => (r, none)

/-- Embedding of `(*ResponseHandler).Error` (alchemy.go 43-48): invokes the callback
exactly when `err` is non-nil and returns the handler itself. -/
def ResponseHandler.error {T : Type u} {β : Type v} (r : ResponseHandler T)
    (callback : OpError → β) : ResponseHandler T × Option β :=
  match r.err with
  | none => (r, none)
  | some e => (r, some (callback e))

/-- The signed parameter map of `CreateToken` (alchemy.go 142-149), listed
in source literal order. -/
def createSignedParams (name symbol : String) (decimals : Int) (masterAuthority : String)
    (nonce blockNum : Int) : Params :=
  [("decimals", .int decimals), ("masterAuthority", .str masterAuthority),
   ("name", .str name), ("nonce", .int nonce), ("recentCheckpoint", .int blockNum),
   ("symbol", .str symbol)]

/-- The request payload of `CreateToken` (alchemy.go 156-168). -/
def createReqParams (name symbol : String) (decimals : Int) (masterAuthority : String)
    (nonce blockNum : Int) (sg : Signature) : ReqParams :=
  [("decimals", .int decimals), ("master_authority", .str masterAuthority),
   ("name", .str name), ("symbol", .str symbol), ("nonce", .int nonce),
   ("recent_checkpoint", .int blockNum), ("signature", .sig sg)]

/-- The signed parameter map of `dynamicCallWithType` (alchemy.go 293-297). -/
def dynamicSignedParams (tokenAddress : String) (nonce blockNum : Int) : Params :=
  [("recentCheckpoint", .int blockNum), ("nonce", .int nonce),
   ("token", .str tokenAddress)]

/-- The request payload of `dynamicCallWithType` (alchemy.go 304-314). -/
def dynamicReqParams (tokenAddress : String) (methodArgs : List GoValue)
    (nonce blockNum : Int) (sg : Signature) : ReqParams :=
  [("nonce", .int nonce), ("token", .str tokenAddress), ("methodArgs", .args methodArgs),
   ("recent_checkpoint", .int blockNum), ("signature", .sig sg)]

/-- Embedding of `CreateToken` (alchemy.go 133-181) up to the final typed
JSON decode (the handler carries the raw result payload): fetch the block
number, sign the fixed parameter subset with nonce 0, post create_token.
The second component lists the network calls performed, in order. -/
def createTokenOp (C : Crypto) (privateKey : String) (env : Env) (name symbol : String)
    (decimals : Int) (masterAuthority : String) :
    ResponseHandler (Option String) × List NetEvent :=
  match getBlockNumberM env with
  | (.error e, tr) => (⟨none, some e⟩, tr)
  | (.ok blockNum, tr) =>
    let nonce : Int := 0
    match generateSignature C privateKey
        (createSignedParams name symbol decimals masterAuthority nonce blockNum) with
    | .error e => (⟨none, some e⟩, tr)
    | .ok sg =>
      match rpcCallM env "create_token"
          (createReqParams name symbol decimals masterAuthority nonce blockNum sg) with
      | (.error e, tr2) => (⟨none, some e⟩, tr ++ tr2)
      | (.ok result, tr2) => (⟨result, none⟩, tr ++ tr2)

/-- Embedding of `dynamicCallWithType` (alchemy.go 286-327) up to the final
typed JSON decode: fetch the block number, sign {recentCheckpoint, nonce,
token}, post the operation's method with the full payload (including
methodArgs, which are not part of the signed map). -/
def dynamicCallOp (C : Crypto) (privateKey : String) (env : Env)
    (tokenAddress methodName : String) (methodArgs : List GoValue) (nonce : Int) :
    ResponseHandler (Option String) × List NetEvent :=
  match getBlockNumberM env with
  | (.error e, tr) => (⟨none, some e⟩, tr)
  | (.ok blockNum, tr) =>
    match generateSignature C privateKey (dynamicSignedParams tokenAddress nonce blockNum) with
    | .error e => (⟨none, some e⟩, tr)
    | .ok sg =>
      match rpcCallM env methodName (dynamicReqParams tokenAddress methodArgs nonce blockNum sg) with
      | (.error e, tr2) => (⟨none, some e⟩, tr ++ tr2)
      | (.ok result, tr2) => (⟨result, none⟩, tr ++ tr2)

/-- Embedding of `GetTokenMetadata` (alchemy.go 184-186). -/
def getTokenMetadataOp (C : Crypto) (key : String) (env : Env) (tokenAddress : String) :
    ResponseHandler (Option String) × List NetEvent :=
  dynamicCallOp C key env tokenAddress "getTokenMetadata" [] 0

/-- Embedding of `UpdateMetadata` (alchemy.go 189-191). -/
def updateMetadataOp (C : Crypto) (key : String) (env : Env)
    (tokenAddress newName newSymbol : String) (nonce : Int) :
    ResponseHandler (Option String) × List NetEvent :=
  dynamicCallOp C key env tokenAddress "updateMetadata" [.str newName, .str newSymbol] nonce

/-- Embedding of `Mint` (alchemy.go 194-196). -/
def mintOp (C : Crypto) (key : String) (env : Env) (tokenAddress toAddress amount : String)
    (nonce : Int) : ResponseHandler (Option String) × List NetEvent :=
  dynamicCallOp C key env tokenAddress "mint" [.str toAddress, .str amount] nonce

/-- Embedding of `GrantAuthority` (alchemy.go 199-201). -/
def grantAuthorityOp (C : Crypto) (key : String) (env : Env)
    (tokenAddress role account : String) (nonce : Int) :
    ResponseHandler (Option String) × List NetEvent :=
  dynamicCallOp C key env tokenAddress "grantAuthority" [.str role, .str account] nonce

/-- Embedding of `RevokeAuthority` (alchemy.go 204-206). -/
def revokeAuthorityOp (C : Crypto) (key : String) (env : Env)
    (tokenAddress role account : String) (nonce : Int) :
    ResponseHandler (Option String) × List NetEvent :=
  dynamicCallOp C key env tokenAddress "revokeAuthority" [.str role, .str account] nonce

/-- Embedding of `AdminBurn` (alchemy.go 209-211). -/
def adminBurnOp (C : Crypto) (key : String) (env : Env)
    (tokenAddress fromAddress amount : String) (nonce : Int) :
    ResponseHandler (Option String) × List NetEvent :=
  dynamicCallOp C key env tokenAddress "adminBurn" [.str fromAddress, .str amount] nonce

/-- Embedding of `Pause` (alchemy.go 214-216). -/
def pauseOp (C : Crypto) (key : String) (env : Env) (tokenAddress : String) (nonce : Int) :
    ResponseHandler (Option String) × List NetEvent :=
  dynamicCallOp C key env tokenAddress "pause" [] nonce

/-- Embedding of `Unpause` (alchemy.go 219-221). -/
def unpauseOp (C : Crypto) (key : String) (env : Env) (tokenAddress : String) (nonce : Int) :
    ResponseHandler (Option String) × List NetEvent :=
  dynamicCallOp C key env tokenAddress "unpause" [] nonce

/-- Embedding of `AddToBlacklist` (alchemy.go 224-226). -/
def addToBlacklistOp (C : Crypto) (key : String) (env : Env)
    (tokenAddress accountAddress : String) (nonce : Int) :
    ResponseHandler (Option String) × List NetEvent :=
  dynamicCallOp C key env tokenAddress "addToBlacklist" [.str accountAddress] nonce

/-- Fuel-driven binary length: `bitLenAux n n` is the bit length of `n`
(0 for 0), written so the kernel can evaluate it. -/
def bitLenAux : Nat → Nat → Nat
  | 0, _ => 0
  | fuel + 1, n => if n = 0 then 0 else bitLenAux fuel (n / 2) + 1

/-- Model of `big.Int.BitLen`. -/
def natBitLen (n : Nat) : Nat := bitLenAux n n

/-- Fuel-driven decimal length (0 for 0). -/
def digitLenAux : Nat → Nat → Nat
  | 0, _ => 0
  | fuel + 1, n => if n = 0 then 0 else digitLenAux fuel (n / 10) + 1

def natDigitLen (n : Nat) : Nat := digitLenAux n n

/-- Big-endian decimal digits of a positive number (empty for 0). -/
def natDigitsAux : Nat → Nat → List Nat
  | 0, _ => []
  | fuel + 1, n => if n = 0 then [] else natDigitsAux fuel (n / 10) ++ [n % 10]

def natDigits (n : Nat) : List Nat := natDigitsAux n n

def digitsToNat (l : List Nat) : Nat := l.foldl (fun acc d => acc * 10 + d % 10) 0

def trimTrailingZeros (l : List Nat) : List Nat := (l.reverse.dropWhile (· = 0)).reverse

/-- Round the rational a/b to the nearest integer, ties to even — the
rounding used both by big.Float's ToNearestEven mode and by math/big's
decimal rounding. -/
def roundNearestEven (a b : Nat) : Nat :=
  let q := a / b
  let r := a % b
  if 2 * r < b then q else if 2 * r > b then q + 1 else if q % 2 = 0 then q else q + 1

/-- Least j with num * base^j ≥ den (for 1 ≤ num < den), by bounded search. -/
def leastShiftAux (base num den : Nat) : Nat → Nat → Nat
  | 0, j => j
  | fuel + 1, j => if den ≤ num * base ^ j then j else leastShiftAux base num den fuel (j + 1)

def leastShift (base num den : Nat) : Nat :=
  leastShiftAux base num den (natBitLen den + natDigitLen den + 2) 0

/-- The binary exponent t with 2^t ≤ num/den < 2^(t+1), for num, den ≥ 1. -/
def findExp2 (num den : Nat) : Int :=
  if den ≤ num then (natBitLen (num / den) : Int) - 1
  else -(leastShift 2 num den : Int)

/-- A non-negative binary floating-point value `m × 2^e` (`m = 0` is zero);
models a `big.Float` with its mantissa normalized to the precision in
force. -/
structure GoFloat where
  m : Nat
  e : Int
deriving DecidableEq

/-- The quotient num/den correctly rounded to a p-bit mantissa, nearest
even — the value `z.Quo(x, y)` produces for z of precision p. -/
def roundToPrec (p : Nat) (num den : Nat) : GoFloat :=
  let t := findExp2 num den
  let s : Int := (p : Int) - 1 - t
  let m :=
    if 0 ≤ s then roundNearestEven (num * 2 ^ s.toNat) den
    else roundNearestEven num (den * 2 ^ (-s).toNat)
  if m = 2 ^ p then ⟨2 ^ (p - 1), t + 1 - ((p : Int) - 1)⟩
  else ⟨m, t - ((p : Int) - 1)⟩

/-- The wei → eth division of `GetBalance` (alchemy.go 272-274):
`ethValue.SetInt(balanceWei)` gives precision max(64, wei.BitLen()), and
`ethValue.Quo(ethValue, big.NewFloat(1e18))` rounds the exact quotient to
that precision (1e18 is exactly representable in a float64). -/
def quoBy1e18 (wei : Nat) : GoFloat :=
  if wei = 0 then ⟨0, 0⟩
  else roundToPrec (max 64 (natBitLen wei)) wei (10 ^ 18)

/-- Exact decimal form of a nonzero GoFloat, as math/big's `decimal`:
significant digits (big-endian, trailing zeros trimmed) and the decimal
point position dp, with value 0.digits × 10^dp.  A binary float is always
an exact finite decimal: for e ≥ 0 the value is the integer m·2^e; for
e < 0 it is (m·5^(-e)) × 10^e. -/
def toDecimalDigits (f : GoFloat) : List Nat × Int :=
  if 0 ≤ f.e then
    let n := f.m * 2 ^ f.e.toNat
    (trimTrailingZeros (natDigits n), (natDigitLen n : Int))
  else
    let n := f.m * 5 ^ (-f.e).toNat
    (trimTrailingZeros (natDigits n), (natDigitLen n : Int) + f.e)

/-- math/big `decimal.round(10)`: keep at most 10 significant digits,
rounding half to even on the exact digit string. -/
def decRound10 (mant : List Nat) (dp : Int) : List Nat × Int :=
  let L := mant.length
  if L ≤ 10 then (mant, dp)
  else
    let n := digitsToNat mant
    let q := roundNearestEven n (10 ^ (L - 10))
    if q = 10 ^ 10 then ([1], dp + 1)
    else (trimTrailingZeros (natDigits q), dp)

def digitChar (d : Nat) : Char := Char.ofNat (48 + d % 10)

/-- Model of `decimal.at(i)`: digit at position i, 0 outside the stored digits. -/
def digitAt (mant : List Nat) (i : Int) : Nat :=
  if 0 ≤ i ∧ i < (mant.length : Int) then mant.getD i.toNat 0 else 0

/-- math/big `fmtF`: integer part (digits up to dp, zero-padded; "0" when
dp ≤ 0) then afterPoint fractional digits. -/
def fmtDigitsF (mant : List Nat) (dp : Int) (afterPoint : Nat) : String :=
  let intPart : List Char :=
    if 0 < dp then (List.range dp.toNat).map (fun i => digitChar (digitAt mant i))
    else ['0']
  let fracPart : List Char :=
    if afterPoint = 0 then []
    else '.' :: (List.range afterPoint).map (fun i => digitChar (digitAt mant (dp + i)))
  ⟨intPart ++ fracPart⟩

/-- math/big `fmtE`: d.ddd…e±nn with afterPoint fractional digits and a
minimum-two-digit exponent. -/
def fmtDigitsE (mant : List Nat) (dp : Int) (afterPoint : Nat) : String :=
  let first := digitChar (digitAt mant 0)
  let fracPart : List Char :=
    if afterPoint = 0 then []
    else '.' :: (List.range afterPoint).map (fun i => digitChar (digitAt mant (1 + i)))
  let ex := dp - 1
  let signChar := if ex < 0 then '-' else '+'
  let eabs := ex.natAbs
  let eDigits := natDigits eabs
  let eDigits := if eabs = 0 then [0] else eDigits
  let eDigits := if eabs < 10 then 0 :: eDigits else eDigits
  ⟨first :: fracPart ++ 'e' :: signChar :: eDigits.map digitChar⟩

/-- Model of `(*big.Float).Text('g', 10)` for non-negative values — the
rendering behind `Float.String()`: convert to exact decimal, round to 10
significant digits, then use %e style when the decimal exponent is < -4
or ≥ the (trailing-zero-adjusted) precision, %f style otherwise; the
precision adjustments drop trailing zeros. -/
def floatTextG10 (f : GoFloat) : String :=
  if f.m = 0 then "0"
  else
    let d0 := toDecimalDigits f
    let d := decRound10 d0.1 d0.2
    let mant := d.1
    let dp := d.2
    let len := mant.length
    let eprec : Int := if 10 > len ∧ dp ≤ (len : Int) then (len : Int) else 10
    let ex := dp - 1
    if ex < -4 ∨ eprec ≤ ex then
      let prec2 := min 10 len
      fmtDigitsE mant dp (prec2 - 1)
    else
      let prec2 : Int := if dp < (10 : Int) then (len : Int) else 10
      fmtDigitsF mant dp (max (prec2 - dp) 0).toNat

/-- Embedding of `BalanceInfo` (alchemy.go 229-232). -/
structure BalanceInfo where
  wei : String
  eth : String
deriving DecidableEq

/-- The conversion tail of `GetBalance` (alchemy.go 266-280) applied to the
result string of the node response: drop the first two bytes ("0x"
assumed), parse base 16 into balanceWei (`none` models the undefined
big.Int after a failed `SetString`, whose return the code ignores, and the
Go slice panic on results shorter than two bytes), then render wei as its
exact decimal string and eth via `Float.String()` = `Text('g', 10)`. -/
def getBalanceInfo (resultField : String) : Option BalanceInfo :=
  match parseHexDigits (resultField.data.drop 2) with
  | none => none
  | some w => some ⟨toString w, floatTextG10 (quoBy1e18 w)⟩

/-- Modelled from the spec's words (claim C9): the exact decimal string of
wei / 10^18 with trailing fractional zeros trimmed — what a conversion
"with no floating-point rounding loss" would return. -/
def exactEthString (wei : Nat) : String :=
  let intPart := wei / 10 ^ 18
  let frac := wei % 10 ^ 18
  if frac = 0 then toString intPart
  else
    let ds := natDigits frac
    let padded := List.replicate (18 - ds.length) 0 ++ ds
    let trimmed := trimTrailingZeros padded
    toString intPart ++ "." ++ String.mk (trimmed.map digitChar)

/-- A concrete instantiation of the abstract crypto primitives, used only
to evaluate theorems on concrete inputs: a toy 32-byte digest and a toy
65-byte signature whose recovery id is d % 2. -/
def demoCrypto : Crypto where
  keccak256 := fun bytes => (List.range 32).map fun i => (bytes.foldl (· + ·) i) % 256
  sign := fun hash d => .ok ((hash ++ hash).take 64 ++ [d % 2])

/-- A well-formed 32-byte private key in hex (no 0x prefix). -/
def demoKey : String := "1111111111111111111111111111111111111111111111111111111111111111"

/-- The scalar demoKey denotes. -/
def demoD : Nat := (hexToECDSA demoKey).getD 0

/-- An environment whose chain node reports block 0x10 = 16 and whose
application RPC replies with an empty successful result object. -/
def demoEnvOk : Env := ⟨some "0x10", some ⟨some "{}", none⟩⟩

theorem generateSignature_of_ok (C : Crypto) (key : String) (params : Params)
    (d : Nat) (sig : List Nat) (hkey : hexToECDSA (stripHex0x key) = some d)
    (hsign : C.sign (C.keccak256 (utf8Bytes (buildSortedMessage params))) d = .ok sig) :
    generateSignature C key params =
      .ok ⟨toString (beNat (sig.take 32)), toString (beNat ((sig.drop 32).take 32)),
        toString ((sig.getD 64 0 + 27) % 256)⟩ := by
  simp only [generateSignature, hkey, hsign]

theorem generateSignature_of_error (C : Crypto) (key : String) (params : Params)
    (hkey : hexToECDSA (stripHex0x key) = none) :
    generateSignature C key params = .error .invalidKey := by
  simp only [generateSignature, hkey]

/-- C1: for every parameter mapping the canonical message builder joins the
values' default string representations (integers in decimal, booleans as
"true"/"false", strings verbatim) with single commas in ascending
lexicographic key order — it agrees with the spec-side sorted-pairs
formulation — and the empty mapping yields the empty string. -/
theorem claim_C1 :
    (∀ params : Params, (keysOf params).Nodup →
      buildSortedMessage params = canonicalMessageSpec params) ∧
    buildSortedMessage [] = "" ∧
    (∀ s, GoValue.format (.str s) = s) ∧
    GoValue.format (.bool true) = "true" ∧
    GoValue.format (.bool false) = "false" ∧
    (∀ n : Int, GoValue.format (.int n) = toString n) :=
  ⟨buildSortedMessage_eq_spec, rfl, fun _ => rfl, rfl, rfl, fun _ => rfl⟩

theorem claim_C1_witness :
    buildSortedMessage [("symbol", .str "MTK"), ("decimals", .int 8), ("isPaused", .bool false)] =
      canonicalMessageSpec
        [("symbol", .str "MTK"), ("decimals", .int 8), ("isPaused", .bool false)] ∧
    buildSortedMessage [("symbol", .str "MTK"), ("decimals", .int 8), ("isPaused", .bool false)] =
      "8,false,MTK" :=
  ⟨claim_C1.1 _ (by decide), by decide⟩

/-- C2: parameter mappings with the same key/value content produce the same
canonical message whatever their iteration order. -/
theorem claim_C2 : ∀ l₁ l₂ : Params, l₁.Perm l₂ → (keysOf l₁).Nodup →
    buildSortedMessage l₁ = buildSortedMessage l₂ :=
  buildSortedMessage_perm

theorem claim_C2_witness :
    buildSortedMessage [("nonce", .int 1), ("token", .str "0xT")] =
      buildSortedMessage [("token", .str "0xT"), ("nonce", .int 1)] :=
  claim_C2 _ _ (List.Perm.swap _ _ _) (by decide)

/-- C3: whenever the configured private key parses and the signing
primitive succeeds, generateSignature returns the decimal strings of the
r and s words of the signature over the Keccak-256 hash of the UTF-8
bytes of the canonical message, and v is the recovery id shifted by
27. -/
theorem claim_C3 (C : Crypto) (key : String) (params : Params) (d : Nat) (sig : List Nat)
    (hkey : hexToECDSA (stripHex0x key) = some d)
    (hsign : C.sign (C.keccak256 (utf8Bytes (buildSortedMessage params))) d = .ok sig)
    (hrec : sig.getD 64 0 < 2) :
    generateSignature C key params =
      .ok ⟨toString (beNat (sig.take 32)), toString (beNat ((sig.drop 32).take 32)),
        toString (sig.getD 64 0 + 27)⟩ := by
  have h := generateSignature_of_ok C key params d sig hkey hsign
  rwa [Nat.mod_eq_of_lt (by omega)] at h

/-- The digest demoCrypto computes over the demo canonical message. -/
def demoHash : List Nat :=
  demoCrypto.keccak256 (utf8Bytes (buildSortedMessage (dynamicSignedParams "0xT" 1 2)))

/-- The toy signature bytes demoCrypto.sign returns for that digest. -/
def demoSigBytes : List Nat := (demoHash ++ demoHash).take 64 ++ [demoD % 2]

theorem claim_C3_witness :
    generateSignature demoCrypto demoKey (dynamicSignedParams "0xT" 1 2) =
      .ok ⟨toString (beNat (demoSigBytes.take 32)),
        toString (beNat ((demoSigBytes.drop 32).take 32)),
        toString (demoSigBytes.getD 64 0 + 27)⟩ :=
  claim_C3 demoCrypto demoKey (dynamicSignedParams "0xT" 1 2) demoD demoSigBytes
    (by decide) rfl (by decide)

/-- C7: the signer accepts a private key with or without a leading "0x"
(the prefix is stripped before parsing, so for any key material not itself
carrying the prefix both spellings give identical results), and any key
the parser rejects makes signing fail with the invalid-key error. -/
theorem claim_C7 :
    (∀ (C : Crypto) (params : Params) (bare : String), bare ≠ "" →
      stripHex0x bare = bare →
      generateSignature C ("0x" ++ bare) params = generateSignature C bare params) ∧
    (∀ (C : Crypto) (params : Params) (key : String),
      hexToECDSA (stripHex0x key) = none →
      generateSignature C key params = .error .invalidKey) := by
  constructor
  · intro C params bare hne hfix
    have hdata : bare.data ≠ [] := fun h => hne (by cases bare; simp_all)
    obtain ⟨c, rest, hcr⟩ := List.exists_cons_of_ne_nil hdata
    have hstrip : stripHex0x ("0x" ++ bare) = bare := by
      show stripHex0x ⟨"0x".data ++ bare.data⟩ = bare
      rw [hcr]
      show (⟨c :: rest⟩ : String) = bare
      rw [← hcr]
    simp only [generateSignature, hstrip, hfix]
  · intro C params key hkey
    exact generateSignature_of_error C key params hkey

theorem claim_C7_witness :
    generateSignature demoCrypto ("0x" ++ demoKey) [("a", .int 1)] =
      generateSignature demoCrypto demoKey [("a", .int 1)] ∧
    generateSignature demoCrypto "zz" [("a", .int 1)] = .error .invalidKey :=
  ⟨claim_C7.1 demoCrypto [("a", .int 1)] demoKey (by decide) (by decide),
    claim_C7.2 demoCrypto [("a", .int 1)] "zz" (by decide)⟩

/-- C8: a response wrapper resolves to exactly one of its two callbacks:
Success fires its callback iff there is no error, Error fires its callback
iff there is one, never both, and each accessor returns the wrapper itself
for chaining. -/
theorem claim_C8 : ∀ (T β γ : Type) (r : ResponseHandler T) (cb : T → β) (eb : OpError → γ),
    ((r.success cb).2.isSome ↔ r.err = none) ∧
    ((r.error eb).2.isSome ↔ r.err ≠ none) ∧
    ¬((r.success cb).2.isSome = true ∧ (r.error eb).2.isSome = true) ∧
    (r.success cb).1 = r ∧ (r.error eb).1 = r := by
  intro T β γ r cb eb
  cases h : r.err <;>
    simp [ResponseHandler.success, ResponseHandler.error, h]

theorem dynamicCallOp_trace (C : Crypto) (key : String) (env : Env)
    (tok method : String) (args : List GoValue) (nonce : Int) (r : String) (sg : Signature)
    (hb : env.blockResult = some r)
    (hsig : generateSignature C key
      (dynamicSignedParams tok nonce ((scanHex0xInt r).getD 0)) = .ok sg) :
    (dynamicCallOp C key env tok method args nonce).2 =
      [.blockNumberCall,
        .appRpcCall method (dynamicReqParams tok args nonce ((scanHex0xInt r).getD 0) sg)] := by
  simp only [dynamicCallOp, getBlockNumberM, hb, hsig, rpcCallM]
  cases henv : env.rpcResponse with
  | none => simp [henv]
  | some resp => cases herr : resp.error <;> simp [henv, herr]

theorem createTokenOp_trace (C : Crypto) (key : String) (env : Env)
    (name symbol : String) (decimals : Int) (ma : String) (r : String) (sg : Signature)
    (hb : env.blockResult = some r)
    (hsig : generateSignature C key
      (createSignedParams name symbol decimals ma 0 ((scanHex0xInt r).getD 0)) = .ok sg) :
    (createTokenOp C key env name symbol decimals ma).2 =
      [.blockNumberCall,
        .appRpcCall "create_token"
          (createReqParams name symbol decimals ma 0 ((scanHex0xInt r).getD 0) sg)] := by
  simp only [createTokenOp, getBlockNumberM, hb, hsig, rpcCallM]
  cases henv : env.rpcResponse with
  | none => simp [henv]
  | some resp => cases herr : resp.error <;> simp [henv, herr]

theorem dynamicCallOp_sigfail (C : Crypto) (key : String) (env : Env)
    (tok method : String) (args : List GoValue) (nonce : Int) (r : String) (e : OpError)
    (hb : env.blockResult = some r)
    (hsig : generateSignature C key
      (dynamicSignedParams tok nonce ((scanHex0xInt r).getD 0)) = .error e) :
    dynamicCallOp C key env tok method args nonce = (⟨none, some e⟩, [.blockNumberCall]) := by
  simp only [dynamicCallOp, getBlockNumberM, hb, hsig]

theorem createTokenOp_sigfail (C : Crypto) (key : String) (env : Env)
    (name symbol : String) (decimals : Int) (ma : String) (r : String) (e : OpError)
    (hb : env.blockResult = some r)
    (hsig : generateSignature C key
      (createSignedParams name symbol decimals ma 0 ((scanHex0xInt r).getD 0)) = .error e) :
    createTokenOp C key env name symbol decimals ma = (⟨none, some e⟩, [.blockNumberCall]) := by
  simp only [createTokenOp, getBlockNumberM, hb, hsig]

/-- C4: token creation signs exactly the business fields (decimals,
masterAuthority, name, symbol) plus nonce and checkpoint; every other
operation signs exactly {recentCheckpoint, nonce, token} — the method
arguments travel in the request payload (under "methodArgs") but are not
part of the signed map, whose signature depends only on the signed triple
— and both request payloads carry the checkpoint under the snake-case key
"recent_checkpoint", never under the "recentCheckpoint" key used for
signing. -/
theorem claim_C4 :
    (∀ (name symbol : String) (decimals : Int) (ma : String) (nonce blockNum : Int),
      keysOf (createSignedParams name symbol decimals ma nonce blockNum) =
        ["decimals", "masterAuthority", "name", "nonce", "recentCheckpoint", "symbol"]) ∧
    (∀ (tok : String) (nonce blockNum : Int),
      keysOf (dynamicSignedParams tok nonce blockNum) =
        ["recentCheckpoint", "nonce", "token"]) ∧
    (∀ (tok : String) (args : List GoValue) (nonce blockNum : Int) (sg : Signature),
      "methodArgs" ∉ keysOf (dynamicSignedParams tok nonce blockNum) ∧
      ("methodArgs", ReqValue.args args) ∈ dynamicReqParams tok args nonce blockNum sg ∧
      ("recent_checkpoint", ReqValue.int blockNum) ∈ dynamicReqParams tok args nonce blockNum sg ∧
      "recentCheckpoint" ∉ (dynamicReqParams tok args nonce blockNum sg).map Prod.fst) ∧
    (∀ (name symbol : String) (decimals : Int) (ma : String) (nonce blockNum : Int)
      (sg : Signature),
      ("recent_checkpoint", ReqValue.int blockNum) ∈
        createReqParams name symbol decimals ma nonce blockNum sg ∧
      "recentCheckpoint" ∉ (createReqParams name symbol decimals ma nonce blockNum sg).map
        Prod.fst) ∧
    (∀ (C : Crypto) (key : String) (env : Env) (tok method : String) (args : List GoValue)
      (nonce : Int) (r : String) (sg : Signature), env.blockResult = some r →
      generateSignature C key
        (dynamicSignedParams tok nonce ((scanHex0xInt r).getD 0)) = .ok sg →
      (dynamicCallOp C key env tok method args nonce).2 =
        [.blockNumberCall,
          .appRpcCall method (dynamicReqParams tok args nonce ((scanHex0xInt r).getD 0) sg)]) := by
  refine ⟨fun _ _ _ _ _ _ => rfl, fun _ _ _ => rfl, ?_, ?_, ?_⟩
  · intro tok args nonce blockNum sg
    refine ⟨?_, ?_, ?_, ?_⟩
    · simp [dynamicSignedParams, keysOf]
    · simp [dynamicReqParams]
    · simp [dynamicReqParams]
    · simp [dynamicReqParams]
  · intro name symbol decimals ma nonce blockNum sg
    exact ⟨by simp [createReqParams], by simp [createReqParams]⟩
  · intro C key env tok method args nonce r sg hb hsig
    exact dynamicCallOp_trace C key env tok method args nonce r sg hb hsig

/-- The signature the demo mint call produces (token "0xT", nonce 1,
checkpoint 16). -/
def demoMintSig : Signature :=
  ((generateSignature demoCrypto demoKey (dynamicSignedParams "0xT" 1 16)).toOption).getD
    ⟨"", "", ""⟩

/-- The signature the demo pause call produces at checkpoint 0. -/
def demoPauseSig : Signature :=
  ((generateSignature demoCrypto demoKey (dynamicSignedParams "0xT" 1 0)).toOption).getD
    ⟨"", "", ""⟩

theorem claim_C4_witness :
    (dynamicCallOp demoCrypto demoKey demoEnvOk "0xT" "mint" [.str "0xA", .str "5"] 1).2 =
      [.blockNumberCall,
        .appRpcCall "mint" (dynamicReqParams "0xT" [.str "0xA", .str "5"] 1 16 demoMintSig)] :=
  claim_C4.2.2.2.2 demoCrypto demoKey demoEnvOk "0xT" "mint" [.str "0xA", .str "5"] 1 "0x10"
    demoMintSig rfl (by decide)

/-- C5 counterexample: with an unparseable private key, CreateToken still
performs the block-height fetch — a network call — before the signing
failure is surfaced, so the failure is not surfaced before any network
call is made by the operation. -/
theorem claim_C5_counterexample :
    (createTokenOp demoCrypto "zz" demoEnvOk "T" "TK" 8 "0xA").1.err =
      some .invalidKey ∧
    (createTokenOp demoCrypto "zz" demoEnvOk "T" "TK" 8 "0xA").2 = [.blockNumberCall] := by
  exact ⟨by decide, by decide⟩

/-- C5 amended: for every operation, a signing failure (bad key or
primitive failure) is surfaced via the error accessor with the
operation's application-RPC request never sent — the only network call
made is the block-height fetch, which precedes signing. -/
theorem claim_C5 :
    (∀ (C : Crypto) (key : String) (env : Env) (name symbol : String) (decimals : Int)
      (ma r : String) (e : OpError), env.blockResult = some r →
      generateSignature C key
        (createSignedParams name symbol decimals ma 0 ((scanHex0xInt r).getD 0)) = .error e →
      (createTokenOp C key env name symbol decimals ma).1.err = some e ∧
      ((createTokenOp C key env name symbol decimals ma).1.error OpError.message).2 =
        some e.message ∧
      (createTokenOp C key env name symbol decimals ma).2 = [.blockNumberCall]) ∧
    (∀ (C : Crypto) (key : String) (env : Env) (tok method : String) (args : List GoValue)
      (nonce : Int) (r : String) (e : OpError), env.blockResult = some r →
      generateSignature C key
        (dynamicSignedParams tok nonce ((scanHex0xInt r).getD 0)) = .error e →
      (dynamicCallOp C key env tok method args nonce).1.err = some e ∧
      ((dynamicCallOp C key env tok method args nonce).1.error OpError.message).2 =
        some e.message ∧
      (dynamicCallOp C key env tok method args nonce).2 = [.blockNumberCall]) := by
  constructor
  · intro C key env name symbol decimals ma r e hb hsig
    rw [createTokenOp_sigfail C key env name symbol decimals ma r e hb hsig]
    exact ⟨rfl, rfl, rfl⟩
  · intro C key env tok method args nonce r e hb hsig
    rw [dynamicCallOp_sigfail C key env tok method args nonce r e hb hsig]
    exact ⟨rfl, rfl, rfl⟩

theorem claim_C5_witness :
    (dynamicCallOp demoCrypto "zz" demoEnvOk "0xT" "pause" [] 1).1.err =
      some OpError.invalidKey ∧
    ((dynamicCallOp demoCrypto "zz" demoEnvOk "0xT" "pause" [] 1).1.error
      OpError.message).2 = some OpError.invalidKey.message ∧
    (dynamicCallOp demoCrypto "zz" demoEnvOk "0xT" "pause" [] 1).2 = [.blockNumberCall] :=
  claim_C5.2 demoCrypto "zz" demoEnvOk "0xT" "pause" [] 1 "0x10" .invalidKey rfl (by decide)

/-- An environment whose application RPC replies with a null result and the
error message "nonce too low" (spec §8 scenario). -/
def envNonceTooLow : Env := ⟨some "0x10", some ⟨none, some "nonce too low"⟩⟩

/-- C6: if the decoded RPC envelope carries an error, the call fails with
an "RPC error" wrapping exactly the server-supplied message and no result
is returned; otherwise the raw result payload is returned.  In
particular, a mint against a server answering
{"result":null,"error":{"message":"nonce too low"}} fires only the error
callback, with a message containing "nonce too low". -/
theorem claim_C6 :
    (∀ (env : Env) (method : String) (ps : ReqParams) (resp : RpcResp) (msg : String),
      env.rpcResponse = some resp → resp.error = some msg →
      rpcCallM env method ps = (.error (.rpc msg), [.appRpcCall method ps]) ∧
      (OpError.rpc msg).message = "RPC error: " ++ msg) ∧
    (∀ (env : Env) (method : String) (ps : ReqParams) (resp : RpcResp),
      env.rpcResponse = some resp → resp.error = none →
      rpcCallM env method ps = (.ok resp.result, [.appRpcCall method ps])) ∧
    ((mintOp demoCrypto demoKey envNonceTooLow "0xT" "0xA" "5" 1).1.err =
      some (.rpc "nonce too low") ∧
     ((mintOp demoCrypto demoKey envNonceTooLow "0xT" "0xA" "5" 1).1.error
       OpError.message).2 = some ("RPC error: " ++ "nonce too low") ∧
     ((mintOp demoCrypto demoKey envNonceTooLow "0xT" "0xA" "5" 1).1.success
       (fun _ => 0)).2 = none) := by
  refine ⟨?_, ?_, ?_, ?_, ?_⟩
  · intro env method ps resp msg henv herr
    refine ⟨?_, rfl⟩
    simp only [rpcCallM, henv, herr]
  · intro env method ps resp henv herr
    simp only [rpcCallM, henv, herr]
  · decide
  · decide
  · decide

theorem claim_C6_witness :
    rpcCallM envNonceTooLow "mint" [] =
      (.error (.rpc "nonce too low"), [.appRpcCall "mint" []]) ∧
    rpcCallM demoEnvOk "mint" [] = (.ok (some "{}"), [.appRpcCall "mint" []]) :=
  ⟨(claim_C6.1 envNonceTooLow "mint" [] ⟨none, some "nonce too low"⟩ "nonce too low"
      rfl rfl).1,
    claim_C6.2.1 demoEnvOk "mint" [] ⟨some "{}", none⟩ rfl rfl⟩

/-- C10: when the chain node's eth_blockNumber result string does not scan
as a "0x"-prefixed hex number — including the empty string left by a
malformed JSON body, whose Unmarshal error getBlockNumber discards, and
strings where a newline aborts the Scanf space-skipping — the
block-height fetch returns checkpoint 0 with a nil error, and the
operation goes on to sign with recentCheckpoint = 0 and to send its RPC
request with recent_checkpoint = 0. -/
theorem claim_C10 :
    (∀ (env : Env) (s : String), env.blockResult = some s → scanHex0xInt s = none →
      getBlockNumberM env = (.ok 0, [.blockNumberCall])) ∧
    scanHex0xInt "" = none ∧
    scanHex0xInt "garbage" = none ∧
    scanHex0xInt "0xzz" = none ∧
    scanHex0xInt "12ab" = none ∧
    scanHex0xInt "0x
10" = none ∧
    scanHex0xInt ("0x" ++ "
" ++ "10") = none ∧
    (∀ (C : Crypto) (key : String) (env : Env) (tok method : String) (args : List GoValue)
      (nonce : Int) (s : String) (sg : Signature),
      env.blockResult = some s → scanHex0xInt s = none →
      generateSignature C key (dynamicSignedParams tok nonce 0) = .ok sg →
      ("recentCheckpoint", GoValue.int 0) ∈ dynamicSignedParams tok nonce 0 ∧
      (dynamicCallOp C key env tok method args nonce).2 =
        [.blockNumberCall, .appRpcCall method (dynamicReqParams tok args nonce 0 sg)]) := by
  refine ⟨?_, by decide, by decide, by decide, by decide, by decide, by decide, ?_⟩
  · intro env s hb hscan
    simp only [getBlockNumberM, hb, hscan, Option.getD_none]
  · intro C key env tok method args nonce s sg hb hscan hsig
    constructor
    · simp [dynamicSignedParams]
    · have h := dynamicCallOp_trace C key env tok method args nonce s sg hb
      rw [hscan] at h
      exact h hsig

theorem claim_C10_witness :
    getBlockNumberM ⟨some "", some ⟨some "{}", none⟩⟩ = (.ok 0, [.blockNumberCall]) ∧
    getBlockNumberM ⟨some "0x
10", some ⟨some "{}", none⟩⟩ = (.ok 0, [.blockNumberCall]) ∧
    (dynamicCallOp demoCrypto demoKey ⟨some "", some ⟨some "{}", none⟩⟩ "0xT" "pause" [] 1).2 =
      [.blockNumberCall, .appRpcCall "pause" (dynamicReqParams "0xT" [] 1 0 demoPauseSig)] :=
  ⟨claim_C10.1 ⟨some "", some ⟨some "{}", none⟩⟩ "" rfl rfl,
    claim_C10.1 ⟨some "0x
10", some ⟨some "{}", none⟩⟩ "0x
10" rfl (by decide),
    (claim_C10.2.2.2.2.2.2.2 demoCrypto demoKey ⟨some "", some ⟨some "{}", none⟩⟩ "0xT" "pause"
      [] 1 "" demoPauseSig rfl rfl (by decide)).2⟩

set_option maxRecDepth 100000 in
/-- C9 counterexample: for wei 10^18 + 1 (hex 0xde0b6b3a7640001), GetBalance
renders eth "1" — big.Float arithmetic and the 10-significant-digit
Float.String() rendering lose the low-order digits — while a division by
10^18 with no floating-point rounding loss yields
"1.000000000000000001". -/
theorem claim_C9_counterexample :
    getBalanceInfo "0xde0b6b3a7640001" = some ⟨"1000000000000000001", "1"⟩ ∧
    exactEthString 1000000000000000001 = "1.000000000000000001" ∧
    ("1" : String) ≠ "1.000000000000000001" :=
  ⟨by decide, by decide, by decide⟩

set_option maxRecDepth 100000 in
/-- C9 amended: GetBalance converts the hex amount to its exact decimal wei
string, and computes the eth value with big.Float binary floating point at
precision max(64, bit length) rendered to at most 10 significant digits —
exact on the spec vectors (10^18 wei gives "1", 5·10^17 gives "0.5",
matching the lossless division on these inputs) but not lossless in
general. -/
theorem claim_C9 :
    (∀ (h : String) (w : Nat), parseHexDigits h.data = some w →
      getBalanceInfo ("0x" ++ h) = some ⟨toString w, floatTextG10 (quoBy1e18 w)⟩) ∧
    getBalanceInfo "0xde0b6b3a7640000" = some ⟨"1000000000000000000", "1"⟩ ∧
    getBalanceInfo "0x6f05b59d3b20000" = some ⟨"500000000000000000", "0.5"⟩ ∧
    floatTextG10 (quoBy1e18 (10 ^ 18)) = exactEthString (10 ^ 18) ∧
    floatTextG10 (quoBy1e18 (5 * 10 ^ 17)) = exactEthString (5 * 10 ^ 17) := by
  refine ⟨?_, by decide, by decide, by decide, by decide⟩
  intro h w hw
  have hd : ("0x" ++ h).data.drop 2 = h.data := rfl
  simp only [getBalanceInfo, hd, hw]

set_option maxRecDepth 100000 in
theorem claim_C9_witness :
    getBalanceInfo ("0x" ++ "7b") = some ⟨"123", floatTextG10 (quoBy1e18 123)⟩ :=
  claim_C9.1 "7b" 123 (by decide)

end AlchemySDK
